import Mathlib

/-!
Verification development for the VersionInferrer evidence-aggregation core:
a shallow embedding of `analysis/guess.py`, `analysis/resource.py` and the
`backends/backend.py` interface, with theorems settling the specified
properties of the `Guess` scoring model and the `Resource` retrieval pipeline.

Python strings are embedded as `List Char`, Python floats (idf weights and
the match-weight configuration scalars) as `ℚ`, Python sets as `Finset`,
and the shared URL cache (a Python `dict`) as an association list.  The
configuration constants `POSITIVE_MATCH_WEIGHT` / `NEGATIVE_MATCH_WEIGHT`
(imported by `guess.py` from `settings`, whose copy here does not define
them) are passed as explicit parameters.
-/

namespace VersionInferrer

/-- A software version record (`backends/software_version.py` interface):
identity is (package, version-name); only the `name` field is consulted by
the code under verification. -/
structure SoftwareVersion where
  package : List Char
  name : List Char
deriving DecidableEq, Repr

/-- An atomic piece of evidence carrying a distinctiveness weight
(`idf_weight`).  The `id` field models Python object identity. -/
structure Asset where
  id : Nat
  idf_weight : ℚ
deriving DecidableEq, Repr

/-- The `Guess` accumulator of `analysis/guess.py`: one candidate
`SoftwareVersion` plus a positive and a negative evidence set. -/
structure Guess where
  software_version : SoftwareVersion
  positive_matches : Finset Asset
  negative_matches : Finset Asset

/-- `Guess.__init__`: both set arguments default to `None`; a falsy
argument (`None` or the empty set) leaves the freshly created empty set in
place, a truthy (non-empty) set is stored as supplied.  No disjointness
check is performed. -/
def Guess.init (software_version : SoftwareVersion)
    (positive_matches : Option (Finset Asset) := none)
    (negative_matches : Option (Finset Asset) := none) : Guess :=
  { software_version := software_version
    positive_matches :=
      match positive_matches with
      | none => ∅
      | some s => if s = ∅ then ∅ else s
    negative_matches :=
      match negative_matches with
      | none => ∅
      | some s => if s = ∅ then ∅ else s }

/-- `Guess.positive_strength`: sum of the `idf_weight`s of the positive
matches. -/
def Guess.positive_strength (g : Guess) : ℚ :=
  g.positive_matches.sum (fun asset => asset.idf_weight)

/-- `Guess.negative_strength`: sum of the `idf_weight`s of the negative
matches. -/
def Guess.negative_strength (g : Guess) : ℚ :=
  g.negative_matches.sum (fun asset => asset.idf_weight)

/-- `Guess.strength`:
`POSITIVE_MATCH_WEIGHT * positive_strength + NEGATIVE_MATCH_WEIGHT * negative_strength`.
The two configuration scalars are explicit parameters `P` and `N`. -/
def Guess.strength (P N : ℚ) (g : Guess) : ℚ :=
  P * g.positive_strength + N * g.negative_strength

/-- Adding an `Asset` to the positive set of a `Guess`
(`guess.positive_matches.add(asset)` as performed by the aggregation step):
Python `set.add`, a no-op when the element is already present. -/
def Guess.addPositive (g : Guess) (a : Asset) : Guess :=
  { g with positive_matches := insert a g.positive_matches }

/-- `Guess.__lt__`: comparison solely by strength. -/
def Guess.lt (P N : ℚ) (a b : Guess) : Prop :=
  Guess.strength P N a < Guess.strength P N b

/-- `Guess.__le__`. -/
def Guess.le (P N : ℚ) (a b : Guess) : Prop :=
  Guess.strength P N a ≤ Guess.strength P N b

/-- `Guess.__eq__`: equality solely by strength. -/
def Guess.eq (P N : ℚ) (a b : Guess) : Prop :=
  Guess.strength P N a = Guess.strength P N b

/-- An HTTP response as consumed by `Resource` (`requests.Response`
interface): `status_code`, `content` bytes and the final `url` after
redirects. -/
structure Response where
  status_code : Nat
  content : List Nat
  url : List Char
deriving DecidableEq, Repr

/-- Lookup in the shared URL cache (`url in cache` / `cache[url]`). -/
def cacheLookup : List (List Char × Response) → List Char → Option Response
  | [], _ => none
  | (k, v) :: rest, url => if k = url then some v else cacheLookup rest url

/-- Store into the shared URL cache (`cache[url] = response`): overwrite
the existing entry for the key, else append. -/
def cacheInsert : List (List Char × Response) → List Char → Response →
    List (List Char × Response)
  | [], url, r => [(url, r)]
  | (k, v) :: rest, url, r =>
    if k = url then (url, r) :: rest else (k, v) :: cacheInsert rest url r

/-- The mutable state of a `Resource` instance: its `url`, the injected
cache (`None` when no cache was supplied), and the two lazily-set
attributes `_response` / `_success` (`none` models the attribute being
absent). -/
structure ResourceState where
  url : List Char
  cache : Option (List (List Char × Response))
  _response : Option Response
  _success : Option Bool
deriving DecidableEq, Repr

/-- `Resource.__init__(url, cache=None)`: neither `_response` nor
`_success` exists yet. -/
def Resource.init (url : List Char)
    (cache : Option (List (List Char × Response)) := none) : ResourceState :=
  ⟨url, cache, none, none⟩

/-- `Resource.retrieved`: `hasattr(self, '_response') or hasattr(self, '_success')`. -/
def ResourceState.retrieved (st : ResourceState) : Bool :=
  st._response.isSome || st._success.isSome

/-- Exceptions that can surface from the embedded `Resource` methods. -/
inductive PyError where
  | retrievalFailure
  | typeError
  | attributeError
deriving DecidableEq, Repr

/-- The network is an oracle from URL to `Option Response`; `none` models
a network-layer exception (`HTTPError`, `RequestException`,
`UnicodeError`) raised by `requests.get`.  Every operation returns its
result (or exception), the updated state, and the number of network calls
made. -/
def Resource.retrieveFetch (net : List Char → Option Response)
    (st : ResourceState) : Except PyError Unit × ResourceState × Nat :=
  match net st.url with
  | none => (.ok (), { st with _success := some false }, 1)
  | some resp =>
    match st.cache with
    | none =>
      -- `self.cache[self.url] = self._response` subscripts `None`:
      -- TypeError propagates with `_response` set but `_success` unset.
      (.error .typeError, { st with _response := some resp }, 1)
    | some c =>
      (.ok (), { st with _response := some resp,
                         cache := some (cacheInsert c st.url resp),
                         _success := some true }, 1)

/-- `Resource.retrieve`: on a cache hit adopt the cached response and mark
success without a network call; otherwise fetch. -/
def Resource.retrieve (net : List Char → Option Response)
    (st : ResourceState) : Except PyError Unit × ResourceState × Nat :=
  match st.cache with
  | some c =>
    match cacheLookup c st.url with
    | some resp =>
      (.ok (), { st with _success := some true, _response := some resp }, 0)
    | none => Resource.retrieveFetch net st
  | none => Resource.retrieveFetch net st

/-- Body shared by the `content`, `status_code` and `final_url` properties
once `retrieved` holds: `if not self._success: raise RetrievalFailure;
return <projection of self._response>`.  Reading an absent attribute is an
`AttributeError`. -/
def Resource.accessorBody {α : Type} (proj : Response → α)
    (st : ResourceState) (n : Nat) : Except PyError α × ResourceState × Nat :=
  match st._success with
  | none => (.error .attributeError, st, n)
  | some false => (.error .retrievalFailure, st, n)
  | some true =>
    match st._response with
    | none => (.error .attributeError, st, n)
    | some r => (.ok (proj r), st, n)

/-- The common shape of the three data properties: trigger retrieval on
first access, then run the accessor body. -/
def Resource.dataAccessor {α : Type} (proj : Response → α)
    (net : List Char → Option Response) (st : ResourceState) :
    Except PyError α × ResourceState × Nat :=
  if st.retrieved then Resource.accessorBody proj st 0
  else
    match Resource.retrieve net st with
    | (.ok _, st', n) => Resource.accessorBody proj st' n
    | (.error e, st', n) => (.error e, st', n)

/-- `Resource.content` property. -/
def Resource.content (net : List Char → Option Response)
    (st : ResourceState) : Except PyError (List Nat) × ResourceState × Nat :=
  Resource.dataAccessor Response.content net st

/-- `Resource.status_code` property. -/
def Resource.status_code (net : List Char → Option Response)
    (st : ResourceState) : Except PyError Nat × ResourceState × Nat :=
  Resource.dataAccessor Response.status_code net st

/-- `Resource.final_url` property. -/
def Resource.final_url (net : List Char → Option Response)
    (st : ResourceState) : Except PyError (List Char) × ResourceState × Nat :=
  Resource.dataAccessor Response.url net st

/-- Body of the `success` property once `retrieved` holds:
`return self._success and self.status_code == 200`.  When `_success` is
`False` the conjunction short-circuits to `False`; when it is `True` the
`status_code` property (with `retrieved` and `_success` already true)
reduces to `self._response.status_code`. -/
def Resource.successBody (st : ResourceState) (n : Nat) :
    Except PyError Bool × ResourceState × Nat :=
  match st._success with
  | none => (.error .attributeError, st, n)
  | some false => (.ok false, st, n)
  | some true =>
    match st._response with
    | none => (.error .attributeError, st, n)
    | some r => (.ok (decide (r.status_code = 200)), st, n)

/-- `Resource.success` property: trigger retrieval on first access, then
evaluate `self._success and self.status_code == 200`. -/
def Resource.success (net : List Char → Option Response)
    (st : ResourceState) : Except PyError Bool × ResourceState × Nat :=
  if st.retrieved then Resource.successBody st 0
  else
    match Resource.retrieve net st with
    | (.ok _, st', n) => Resource.successBody st' n
    | (.error e, st', n) => (.error e, st', n)

/-- A retrieval attempt has completed: `_success` was assigned, and a
successful attempt also assigned `_response`. -/
def ResourceState.completed (st : ResourceState) : Prop :=
  st._success = some false
    ∨ ∃ r : Response, st._success = some true ∧ st._response = some r

/-- Python `str.split()` with no separator: split on runs of whitespace,
discarding empty fragments (accumulator variant; the accumulator holds the
current fragment reversed). -/
def pySplitAux : List Char → List Char → List (List Char)
  | [], acc => if acc.isEmpty then [] else [acc.reverse]
  | c :: rest, acc =>
    if c.isWhitespace then
      if acc.isEmpty then pySplitAux rest []
      else acc.reverse :: pySplitAux rest []
    else pySplitAux rest (c :: acc)

/-- Python `str.split()`. -/
def pySplit (s : List Char) : List (List Char) :=
  pySplitAux s []

/-- Python `str.lower()`. -/
def pyLower (s : List Char) : List Char :=
  s.map Char.toLower

/-- Python `str.strip()`: remove leading and trailing whitespace. -/
def pyStrip (s : List Char) : List Char :=
  ((s.dropWhile Char.isWhitespace).reverse.dropWhile Char.isWhitespace).reverse

/-- Python `needle in hay` on strings: substring containment. -/
def pyIn (needle hay : List Char) : Bool :=
  match hay with
  | [] => needle.isEmpty
  | _ :: rest => needle.isPrefixOf hay || pyIn needle rest

/-- The per-package narrowing of `Resource._extract_generator_tag`: start
from all versions of the matched package; when the generator content has a
second token, drop every version whose name does not contain it
(`components[1].lower().strip() not in version.name.lower().strip()`), and
if that removed every version fall back to the full version set. -/
def narrowVersions (retrieve_versions : List Char → Finset SoftwareVersion)
    (rest : List (List Char)) (m : List Char) : Finset SoftwareVersion :=
  let versions := retrieve_versions m
  match rest with
  | [] => versions
  | second :: _ =>
    let matching_versions := versions.filter
      (fun version =>
        pyIn (pyStrip (pyLower second)) (pyStrip (pyLower version.name)) = true)
    if matching_versions = ∅ then versions else matching_versions

/-- `Resource._extract_generator_tag`: the parsed document is abstracted
as the list of its generator meta tags (each carrying its optional
`content` attribute); the backend is abstracted as the two query functions
`retrieve_packages_by_name` and `retrieve_versions` (interfaces external
to the analysed core).  Zero or several tags, a missing/empty content, or
a whitespace-only content yield the empty set; otherwise the first token
selects the packages and the remaining tokens drive `narrowVersions`. -/
def extract_generator_tag
    (retrieve_packages_by_name : List Char → List (List Char))
    (retrieve_versions : List Char → Finset SoftwareVersion)
    (generator_tags : List (Option (List Char))) : Finset SoftwareVersion :=
  match generator_tags with
  | [some content] =>
    if content.isEmpty then ∅
    else
      match pySplit content with
      | [] => ∅
      | first :: rest =>
        (retrieve_packages_by_name first).foldl
          (fun result m => result ∪ narrowVersions retrieve_versions rest m) ∅
  | _ => ∅

/-- The derived-name compression step of `Resource.persist`: a name longer
than 200 characters becomes
`'...'.join((path_name[:50], calculate_checksum(path_name.encode()).hex(), path_name[-50:]))`.
The checksum hex digest (`base/checksum.py`, repository code not under
`src/`) is an abstract parameter. -/
def persistPathName (checksumHex : List Char → List Char)
    (path_name : List Char) : List Char :=
  if 200 < path_name.length then
    List.intercalate ['.', '.', '.']
      [path_name.take 50, checksumHex path_name,
        path_name.drop (path_name.length - 50)]
  else path_name

/-- Modelled from the spec: `clean_path_name` (in `base/utils.py`, which
is not under `src/`) restricts the URL path to a filesystem-safe character
set; it is abstracted as a caller-supplied sanitizer.  This is the name
derivation of `persist`: `clean_path_name(parsed_url.path[1:]) or '__index__'`. -/
def derivePathName (clean : List Char → List Char)
    (urlPath : List Char) : List Char :=
  let cleaned := clean (urlPath.drop 1)
  if cleaned.isEmpty then ('_' :: '_' :: 'i' :: 'n' :: 'd' :: 'e' :: 'x' :: '_' :: '_' :: [])
  else cleaned

/-- Concrete demo backend for the generator-tag examples: the single
package `WordPress` with versions `5.4` and `5.5`. -/
def demoPackages : List Char → List (List Char) :=
  fun name =>
    if name = ('W' :: 'o' :: 'r' :: 'd' :: 'P' :: 'r' :: 'e' :: 's' :: 's' :: [])
    then [('W' :: 'o' :: 'r' :: 'd' :: 'P' :: 'r' :: 'e' :: 's' :: 's' :: [])]
    else []

/-- Versions of the demo backend. -/
def demoVersions : List Char → Finset SoftwareVersion :=
  fun p =>
    if p = ('W' :: 'o' :: 'r' :: 'd' :: 'P' :: 'r' :: 'e' :: 's' :: 's' :: [])
    then
      {⟨('W' :: 'o' :: 'r' :: 'd' :: 'P' :: 'r' :: 'e' :: 's' :: 's' :: []),
          ('5' :: '.' :: '4' :: [])⟩,
        ⟨('W' :: 'o' :: 'r' :: 'd' :: 'P' :: 'r' :: 'e' :: 's' :: 's' :: []),
          ('5' :: '.' :: '5' :: [])⟩}
    else ∅

end VersionInferrer

namespace VersionInferrer

/-- The accessor body never mutates the state. -/
theorem accessorBody_state {α : Type} (proj : Response → α)
    (st : ResourceState) (n : Nat) :
    (Resource.accessorBody proj st n).2.1 = st := by
  rcases hs : st._success with _ | b
  · simp [Resource.accessorBody, hs]
  · cases b
    · simp [Resource.accessorBody, hs]
    · rcases hr : st._response with _ | r <;> simp [Resource.accessorBody, hs, hr]

/-- The accessor body makes no network call of its own. -/
theorem accessorBody_calls {α : Type} (proj : Response → α)
    (st : ResourceState) (n : Nat) :
    (Resource.accessorBody proj st n).2.2 = n := by
  rcases hs : st._success with _ | b
  · simp [Resource.accessorBody, hs]
  · cases b
    · simp [Resource.accessorBody, hs]
    · rcases hr : st._response with _ | r <;> simp [Resource.accessorBody, hs, hr]

/-- The `success` body never mutates the state. -/
theorem successBody_state (st : ResourceState) (n : Nat) :
    (Resource.successBody st n).2.1 = st := by
  rcases hs : st._success with _ | b
  · simp [Resource.successBody, hs]
  · cases b
    · simp [Resource.successBody, hs]
    · rcases hr : st._response with _ | r <;> simp [Resource.successBody, hs, hr]

/-- The `success` body makes no network call of its own. -/
theorem successBody_calls (st : ResourceState) (n : Nat) :
    (Resource.successBody st n).2.2 = n := by
  rcases hs : st._success with _ | b
  · simp [Resource.successBody, hs]
  · cases b
    · simp [Resource.successBody, hs]
    · rcases hr : st._response with _ | r <;> simp [Resource.successBody, hs, hr]

/-- On an already-retrieved state a data property runs only its body. -/
theorem dataAccessor_retrieved {α : Type} (proj : Response → α)
    (net : List Char → Option Response) (st : ResourceState)
    (h : st.retrieved = true) :
    Resource.dataAccessor proj net st = Resource.accessorBody proj st 0 := by
  simp [Resource.dataAccessor, h]

/-- On an already-retrieved state `success` runs only its body. -/
theorem success_retrieved (net : List Char → Option Response)
    (st : ResourceState) (h : st.retrieved = true) :
    Resource.success net st = Resource.successBody st 0 := by
  simp [Resource.success, h]

/-- No retrieval attempt has been made iff both attributes are absent. -/
theorem retrieved_false_iff (st : ResourceState) :
    st.retrieved = false ↔ st._response = none ∧ st._success = none := by
  obtain ⟨url, cache, r?, s?⟩ := st
  cases r? <;> cases s? <;> simp [ResourceState.retrieved]

/-- Membership in a fold of unions. -/
theorem mem_foldl_union {α β : Type} [DecidableEq β] (f : α → Finset β)
    (l : List α) (init : Finset β) (v : β) :
    v ∈ l.foldl (fun acc m => acc ∪ f m) init ↔ v ∈ init ∨ ∃ m ∈ l, v ∈ f m := by
  induction l generalizing init with
  | nil => simp
  | cons a t ih =>
    rw [List.foldl_cons, ih]
    simp only [Finset.mem_union, List.mem_cons]
    constructor
    · rintro ((h | h) | ⟨m, hm, hv⟩)
      · exact Or.inl h
      · exact Or.inr ⟨a, Or.inl rfl, h⟩
      · exact Or.inr ⟨m, Or.inr hm, hv⟩
    · rintro (h | ⟨m, rfl | hm, hv⟩)
      · exact Or.inl (Or.inl h)
      · exact Or.inl (Or.inr hv)
      · exact Or.inr ⟨m, hm, hv⟩

/-- Membership in the narrowed version set of one matched package: the
version belongs to the package and either its name contains the second
token or no version's name does (fallback). -/
theorem mem_narrowVersions (retrieve_versions : List Char → Finset SoftwareVersion)
    (second : List Char) (rest : List (List Char)) (m : List Char)
    (v : SoftwareVersion) :
    v ∈ narrowVersions retrieve_versions (second :: rest) m ↔
      v ∈ retrieve_versions m
        ∧ (pyIn (pyStrip (pyLower second)) (pyStrip (pyLower v.name)) = true
          ∨ ∀ w ∈ retrieve_versions m,
              pyIn (pyStrip (pyLower second)) (pyStrip (pyLower w.name)) = false) := by
  have hred : narrowVersions retrieve_versions (second :: rest) m
      = (if (retrieve_versions m).filter
            (fun version =>
              pyIn (pyStrip (pyLower second)) (pyStrip (pyLower version.name))
                = true) = ∅
        then retrieve_versions m
        else (retrieve_versions m).filter
          (fun version =>
            pyIn (pyStrip (pyLower second)) (pyStrip (pyLower version.name))
              = true)) := rfl
  rw [hred]
  by_cases hnar : (retrieve_versions m).filter
      (fun version =>
        pyIn (pyStrip (pyLower second)) (pyStrip (pyLower version.name)) = true) = ∅
  · rw [if_pos hnar]
    have hall := Finset.filter_eq_empty_iff.mp hnar
    constructor
    · intro hv
      refine ⟨hv, Or.inr fun w hw => ?_⟩
      have := hall hw
      simpa using this
    · rintro ⟨hv, _⟩
      exact hv
  · rw [if_neg hnar]
    rw [Finset.mem_filter]
    constructor
    · rintro ⟨hv, hp⟩
      exact ⟨hv, Or.inl hp⟩
    · rintro ⟨hv, hp | hall⟩
      · exact ⟨hv, hp⟩
      · exact absurd (Finset.filter_eq_empty_iff.mpr
          (fun w hw => by simp [hall w hw])) hnar

/-- Splitting the empty string yields no components. -/
theorem pySplit_nil : pySplit [] = [] := rfl

/-- C3 counterexample: adding an `Asset` that is already in the positive
set does not change `strength` (Python `set.add` is a no-op there), so with
`POSITIVE_MATCH_WEIGHT = 1` the increase is `0`, not `1 × w = 1`. -/
theorem strength_add_existing_asset_counterexample :
    ¬ (Guess.strength 1 (-1)
        (Guess.addPositive
          { software_version := ⟨[], []⟩
            positive_matches := {⟨0, 1⟩}
            negative_matches := ∅ } ⟨0, 1⟩)
      = Guess.strength 1 (-1)
          { software_version := ⟨[], []⟩
            positive_matches := {⟨0, 1⟩}
            negative_matches := ∅ }
        + 1 * (1 : ℚ)) := by
  simp [Guess.strength, Guess.addPositive, Guess.positive_strength,
    Guess.negative_strength]

/-- C3 (amended): `strength = P * positive_strength + N * negative_strength`
where the strengths are the idf-weight sums, and adding an `Asset` of weight
`w` that is NOT already in the positive set increases `strength` by exactly
`P * w`, for every starting evidence state. -/
theorem strength_linear_add_new (P N : ℚ) (g : Guess) (a : Asset)
    (h : a ∉ g.positive_matches) :
    Guess.strength P N g
        = P * g.positive_matches.sum (fun asset => asset.idf_weight)
          + N * g.negative_matches.sum (fun asset => asset.idf_weight)
      ∧ Guess.strength P N (Guess.addPositive g a)
        = Guess.strength P N g + P * a.idf_weight := by
  constructor
  · rfl
  · simp only [Guess.strength, Guess.addPositive, Guess.positive_strength,
      Guess.negative_strength, Finset.sum_insert h]
    ring

/-- C3 witness: concrete instance of the amended linearity statement. -/
theorem strength_linear_add_new_witness :
    (⟨1, 2⟩ : Asset) ∉
        ({⟨0, 1⟩} : Finset Asset)
      ∧ (Guess.strength 1 (-1)
            { software_version := ⟨[], []⟩
              positive_matches := {⟨0, 1⟩}
              negative_matches := ∅ }
          = 1 * ({⟨0, 1⟩} : Finset Asset).sum (fun asset => asset.idf_weight)
            + (-1) * (∅ : Finset Asset).sum (fun asset => asset.idf_weight)
        ∧ Guess.strength 1 (-1)
            (Guess.addPositive
              { software_version := ⟨[], []⟩
                positive_matches := {⟨0, 1⟩}
                negative_matches := ∅ } ⟨1, 2⟩)
          = Guess.strength 1 (-1)
              { software_version := ⟨[], []⟩
                positive_matches := {⟨0, 1⟩}
                negative_matches := ∅ }
            + 1 * (⟨1, 2⟩ : Asset).idf_weight) :=
  ⟨by decide,
   strength_linear_add_new 1 (-1)
     { software_version := ⟨[], []⟩
       positive_matches := {⟨0, 1⟩}
       negative_matches := ∅ } ⟨1, 2⟩ (by decide)⟩

/-- C4: the comparison operators on `Guess` are determined solely by
`strength`: `a < b` iff `a.strength < b.strength`, `a == b` iff the
strengths are equal (regardless of version or evidence sets), and the
ordering is total (trichotomy holds). -/
theorem guess_order_by_strength (P N : ℚ) (a b : Guess) :
    (Guess.lt P N a b ↔ Guess.strength P N a < Guess.strength P N b)
      ∧ (Guess.eq P N a b ↔ Guess.strength P N a = Guess.strength P N b)
      ∧ (Guess.lt P N a b ∨ Guess.eq P N a b ∨ Guess.lt P N b a) := by
  refine ⟨Iff.rfl, Iff.rfl, ?_⟩
  exact lt_trichotomy (Guess.strength P N a) (Guess.strength P N b)

/-- C8 counterexample: `Guess.__init__` stores caller-supplied sets without
any disjointness check, so a `Guess` constructed with the same `Asset` in
both sets has it in both sets immediately after construction. -/
theorem guess_overlapping_sets_counterexample :
    (⟨0, 1⟩ : Asset) ∈
        (Guess.init ⟨[], []⟩ (some {⟨0, 1⟩}) (some {⟨0, 1⟩})).positive_matches
      ∧ (⟨0, 1⟩ : Asset) ∈
        (Guess.init ⟨[], []⟩ (some {⟨0, 1⟩}) (some {⟨0, 1⟩})).negative_matches := by
  constructor <;> simp [Guess.init]

/-- C8 (amended): the constructor does not enforce disjointness; the
positive and negative sets of a freshly constructed `Guess` are disjoint
precisely when the caller-supplied sets are (defaulted/empty arguments give
empty, hence disjoint, sets). -/
theorem guess_disjoint_when_supplied_disjoint (sv : SoftwareVersion)
    (pos neg : Option (Finset Asset))
    (h : ∀ a : Asset, a ∈ pos.getD ∅ → a ∉ neg.getD ∅) :
    ∀ a : Asset, a ∈ (Guess.init sv pos neg).positive_matches
      → a ∉ (Guess.init sv pos neg).negative_matches := by
  intro a ha hb
  apply h a
  · rcases pos with _ | s
    · simpa [Guess.init] using ha
    · simp only [Guess.init, Option.getD] at ha ⊢
      by_cases hs : s = ∅ <;> simp [hs] at ha ⊢ <;> exact ha
  · rcases neg with _ | s
    · simpa [Guess.init] using hb
    · simp only [Guess.init, Option.getD] at hb ⊢
      by_cases hs : s = ∅ <;> simp [hs] at hb ⊢ <;> exact hb

/-- C1: on a `Resource` whose retrieval attempt has completed, `success`
returns `True` iff the attempt succeeded and the final status code is
exactly 200; in particular a successful attempt with a non-200 status
yields `False`. -/
theorem success_iff_status_200 (net : List Char → Option Response)
    (st : ResourceState) (h : st.completed) :
    ((Resource.success net st).1 = .ok true ↔
        ∃ r : Response, st._success = some true ∧ st._response = some r
          ∧ r.status_code = 200)
      ∧ ∀ r : Response, st._success = some true → st._response = some r →
          r.status_code ≠ 200 → (Resource.success net st).1 = .ok false := by
  rcases h with hf | ⟨r, hs, hr⟩
  · have hkey : Resource.success net st = (.ok false, st, 0) := by
      simp [Resource.success, ResourceState.retrieved, Resource.successBody, hf]
    constructor
    · rw [hkey]
      simp [hf]
    · intro r' hs'
      rw [hf] at hs'
      exact absurd (Option.some.inj hs') (by decide)
  · have hkey : Resource.success net st
        = (.ok (decide (r.status_code = 200)), st, 0) := by
      simp [Resource.success, ResourceState.retrieved, Resource.successBody,
        hs, hr]
    constructor
    · rw [hkey]
      constructor
      · intro hok
        exact ⟨r, hs, hr, of_decide_eq_true (Except.ok.inj hok)⟩
      · rintro ⟨r', hs', hr', h200⟩
        have hrr : r' = r := by
          rw [hr] at hr'
          exact (Option.some.inj hr').symm
        subst hrr
        simp [h200]
    · intro r' hs' hr' hne
      have hrr : r' = r := by
        rw [hr] at hr'
        exact (Option.some.inj hr').symm
      subst hrr
      rw [hkey]
      simp [hne]

/-- C1 witness: a completed successful attempt with status 404 yields
`success = False`; with status 200 it yields `True`. -/
theorem success_iff_status_200_witness :
    ((⟨['u'], none, some ⟨404, [], ['u']⟩, some true⟩ : ResourceState).completed
      ∧ (Resource.success (fun _ => none)
          ⟨['u'], none, some ⟨404, [], ['u']⟩, some true⟩).1 = .ok false)
      ∧ (Resource.success (fun _ => none)
          ⟨['u'], none, some ⟨200, [], ['u']⟩, some true⟩).1 = .ok true :=
  ⟨⟨Or.inr ⟨⟨404, [], ['u']⟩, rfl, rfl⟩,
    (success_iff_status_200 (fun _ => none)
        ⟨['u'], none, some ⟨404, [], ['u']⟩, some true⟩
        (Or.inr ⟨⟨404, [], ['u']⟩, rfl, rfl⟩)).2
      ⟨404, [], ['u']⟩ rfl rfl (by decide)⟩,
   ((success_iff_status_200 (fun _ => none)
        ⟨['u'], none, some ⟨200, [], ['u']⟩, some true⟩
        (Or.inr ⟨⟨200, [], ['u']⟩, rfl, rfl⟩)).1.mpr
      ⟨⟨200, [], ['u']⟩, rfl, rfl, rfl⟩)⟩

/-- C6: when the injected cache already contains the resource's URL,
`retrieve` makes no network call (0 calls, and the result does not depend
on the network oracle), adopts the cached response as `_response`, and
marks the attempt successful. -/
theorem retrieve_cache_hit (net : List Char → Option Response)
    (st : ResourceState) (c : List (List Char × Response)) (resp : Response)
    (hc : st.cache = some c) (hl : cacheLookup c st.url = some resp) :
    Resource.retrieve net st =
      (.ok (), { st with _success := some true, _response := some resp }, 0) := by
  simp [Resource.retrieve, hc, hl]

/-- C6 witness: a fresh `Resource` over a one-entry cache containing its
URL. -/
theorem retrieve_cache_hit_witness :
    (Resource.init ['u'] (some [(['u'], ⟨200, [7], ['u']⟩)])).cache
        = some [(['u'], ⟨200, [7], ['u']⟩)]
      ∧ cacheLookup [(['u'], ⟨200, [7], ['u']⟩)]
          (Resource.init ['u'] (some [(['u'], ⟨200, [7], ['u']⟩)])).url
        = some ⟨200, [7], ['u']⟩
      ∧ Resource.retrieve (fun _ => none)
          (Resource.init ['u'] (some [(['u'], ⟨200, [7], ['u']⟩)]))
        = (.ok (), ⟨['u'], some [(['u'], ⟨200, [7], ['u']⟩)],
            some ⟨200, [7], ['u']⟩, some true⟩, 0) :=
  ⟨rfl, rfl,
   retrieve_cache_hit (fun _ => none)
     (Resource.init ['u'] (some [(['u'], ⟨200, [7], ['u']⟩)]))
     [(['u'], ⟨200, [7], ['u']⟩)] ⟨200, [7], ['u']⟩ rfl rfl⟩

/-- C10: on a `Resource` constructed without a cache, a retrieval attempt
whose network call succeeds raises `TypeError` out of `retrieve` (the
unconditional `self.cache[self.url] = self._response` subscripts `None`),
while the error path (network fault caught) completes normally with
`_success = False`. -/
theorem retrieve_cacheless_type_error (net : List Char → Option Response)
    (st : ResourceState) (hc : st.cache = none) :
    (∀ resp : Response, net st.url = some resp →
        Resource.retrieve net st =
          (.error .typeError, { st with _response := some resp }, 1))
      ∧ (net st.url = none →
        Resource.retrieve net st =
          (.ok (), { st with _success := some false }, 1)) := by
  constructor
  · intro resp hn
    simp [Resource.retrieve, Resource.retrieveFetch, hc, hn]
  · intro hn
    simp [Resource.retrieve, Resource.retrieveFetch, hc, hn]

/-- C10 witness: a cacheless `Resource` whose network call succeeds raises
`TypeError`; one whose network call fails completes with `_success = False`. -/
theorem retrieve_cacheless_type_error_witness :
    (Resource.init ['u'] none).cache = none
      ∧ (fun _ : List Char => some (⟨200, [], ['u']⟩ : Response))
          (Resource.init ['u'] none).url = some ⟨200, [], ['u']⟩
      ∧ Resource.retrieve (fun _ => some ⟨200, [], ['u']⟩)
          (Resource.init ['u'] none)
        = (.error .typeError, ⟨['u'], none, some ⟨200, [], ['u']⟩, none⟩, 1)
      ∧ Resource.retrieve (fun _ => none) (Resource.init ['u'] none)
        = (.ok (), ⟨['u'], none, none, some false⟩, 1) :=
  ⟨rfl, rfl,
   (retrieve_cacheless_type_error (fun _ => some ⟨200, [], ['u']⟩)
       (Resource.init ['u'] none) rfl).1 ⟨200, [], ['u']⟩ rfl,
   (retrieve_cacheless_type_error (fun _ => none)
       (Resource.init ['u'] none) rfl).2 rfl⟩

/-- C5 counterexample: on a `Resource` constructed without a cache, when
the network call succeeds, the `content` accessor propagates `TypeError` —
neither a `RetrievalFailure` nor a normal return — so the accessors are not
exhaustively described by "RetrievalFailure on failure, normal return
otherwise". -/
theorem accessor_cacheless_counterexample :
    (Resource.content (fun _ => some ⟨200, [3], ['u']⟩)
        (Resource.init ['u'] none)).1 = Except.error PyError.typeError
      ∧ PyError.typeError ≠ PyError.retrievalFailure :=
  ⟨rfl, by decide⟩

/-- C5 (amended): each of `content`, `status_code` and `final_url`
triggers retrieval on first access, raises `RetrievalFailure` whenever the
(possibly just-triggered) attempt did not succeed, and returns the
corresponding response datum otherwise — except on the C10 path (no cache
supplied and the network call succeeds), where `TypeError` propagates
instead. -/
theorem accessors_raise_retrieval_failure (net : List Char → Option Response)
    (st : ResourceState) :
    (st._success = some false →
      Resource.content net st = (.error .retrievalFailure, st, 0)
        ∧ Resource.status_code net st = (.error .retrievalFailure, st, 0)
        ∧ Resource.final_url net st = (.error .retrievalFailure, st, 0))
      ∧ (∀ r : Response, st._success = some true → st._response = some r →
        Resource.content net st = (.ok r.content, st, 0)
          ∧ Resource.status_code net st = (.ok r.status_code, st, 0)
          ∧ Resource.final_url net st = (.ok r.url, st, 0))
      ∧ (st.retrieved = false →
        ∀ (c : List (List Char × Response)) (resp : Response),
          st.cache = some c → cacheLookup c st.url = some resp →
        Resource.content net st =
            (.ok resp.content,
              { st with _success := some true, _response := some resp }, 0)
          ∧ Resource.status_code net st =
            (.ok resp.status_code,
              { st with _success := some true, _response := some resp }, 0)
          ∧ Resource.final_url net st =
            (.ok resp.url,
              { st with _success := some true, _response := some resp }, 0))
      ∧ (st.retrieved = false →
        (st.cache = none
            ∨ ∃ c : List (List Char × Response),
                st.cache = some c ∧ cacheLookup c st.url = none) →
        net st.url = none →
        Resource.content net st =
            (.error .retrievalFailure, { st with _success := some false }, 1)
          ∧ Resource.status_code net st =
            (.error .retrievalFailure, { st with _success := some false }, 1)
          ∧ Resource.final_url net st =
            (.error .retrievalFailure, { st with _success := some false }, 1))
      ∧ (st.retrieved = false →
        ∀ (c : List (List Char × Response)) (resp : Response),
          st.cache = some c → cacheLookup c st.url = none →
          net st.url = some resp →
        Resource.content net st =
            (.ok resp.content,
              { st with _response := some resp,
                        cache := some (cacheInsert c st.url resp),
                        _success := some true }, 1)
          ∧ Resource.status_code net st =
            (.ok resp.status_code,
              { st with _response := some resp,
                        cache := some (cacheInsert c st.url resp),
                        _success := some true }, 1)
          ∧ Resource.final_url net st =
            (.ok resp.url,
              { st with _response := some resp,
                        cache := some (cacheInsert c st.url resp),
                        _success := some true }, 1)) := by
  refine ⟨?_, ?_, ?_, ?_, ?_⟩
  · intro hs
    refine ⟨?_, ?_, ?_⟩ <;>
      simp [Resource.content, Resource.status_code, Resource.final_url,
        Resource.dataAccessor, ResourceState.retrieved, hs,
        Resource.accessorBody]
  · intro r hs hr
    refine ⟨?_, ?_, ?_⟩ <;>
      simp [Resource.content, Resource.status_code, Resource.final_url,
        Resource.dataAccessor, ResourceState.retrieved, hs, hr,
        Resource.accessorBody]
  · intro hret c resp hc hl
    obtain ⟨hr0, hs0⟩ := (retrieved_false_iff st).mp hret
    refine ⟨?_, ?_, ?_⟩ <;>
      simp [Resource.content, Resource.status_code, Resource.final_url,
        Resource.dataAccessor, ResourceState.retrieved, hr0, hs0,
        Resource.retrieve, hc, hl, Resource.accessorBody]
  · intro hret hmiss hn
    obtain ⟨hr0, hs0⟩ := (retrieved_false_iff st).mp hret
    rcases hmiss with hc | ⟨c, hc, hl⟩
    · refine ⟨?_, ?_, ?_⟩ <;>
        simp [Resource.content, Resource.status_code, Resource.final_url,
          Resource.dataAccessor, ResourceState.retrieved, hr0, hs0,
          Resource.retrieve, Resource.retrieveFetch, hc, hn,
          Resource.accessorBody]
    · refine ⟨?_, ?_, ?_⟩ <;>
        simp [Resource.content, Resource.status_code, Resource.final_url,
          Resource.dataAccessor, ResourceState.retrieved, hr0, hs0,
          Resource.retrieve, Resource.retrieveFetch, hc, hl, hn,
          Resource.accessorBody]
  · intro hret c resp hc hl hn
    obtain ⟨hr0, hs0⟩ := (retrieved_false_iff st).mp hret
    refine ⟨?_, ?_, ?_⟩ <;>
      simp [Resource.content, Resource.status_code, Resource.final_url,
        Resource.dataAccessor, ResourceState.retrieved, hr0, hs0,
        Resource.retrieve, Resource.retrieveFetch, hc, hl, hn,
        Resource.accessorBody]

/-- C5 witness: a completed failed attempt raises `RetrievalFailure` from
all three accessors with no network call; a fresh cacheless `Resource`
whose network call fails triggers one retrieval and then raises
`RetrievalFailure`. -/
theorem accessors_raise_retrieval_failure_witness :
    (Resource.content (fun _ => none) ⟨['u'], none, none, some false⟩
          = (.error .retrievalFailure, ⟨['u'], none, none, some false⟩, 0)
        ∧ Resource.status_code (fun _ => none) ⟨['u'], none, none, some false⟩
          = (.error .retrievalFailure, ⟨['u'], none, none, some false⟩, 0)
        ∧ Resource.final_url (fun _ => none) ⟨['u'], none, none, some false⟩
          = (.error .retrievalFailure, ⟨['u'], none, none, some false⟩, 0))
      ∧ (Resource.content (fun _ => none) (Resource.init ['u'] none)
          = (.error .retrievalFailure, ⟨['u'], none, none, some false⟩, 1)
        ∧ Resource.status_code (fun _ => none) (Resource.init ['u'] none)
          = (.error .retrievalFailure, ⟨['u'], none, none, some false⟩, 1)
        ∧ Resource.final_url (fun _ => none) (Resource.init ['u'] none)
          = (.error .retrievalFailure, ⟨['u'], none, none, some false⟩, 1)) :=
  ⟨(accessors_raise_retrieval_failure (fun _ => none)
      ⟨['u'], none, none, some false⟩).1 rfl,
   (accessors_raise_retrieval_failure (fun _ => none)
      (Resource.init ['u'] none)).2.2.2.1 rfl (Or.inl rfl) rfl⟩

/-- C7 counterexample: on a `Resource` constructed without a cache and
with a succeeding network call, `content` invoked first propagates
`TypeError` (through its triggered retrieval), but invoked after an
explicit `retrieve()` it raises `AttributeError` (the interrupted retrieve
left `_response` set and `_success` absent) — the before/after outcomes
differ, refuting the unrestricted memoization claim. -/
theorem retrieve_memoized_counterexample :
    (Resource.content (fun _ => some ⟨200, [3], ['u']⟩)
        (Resource.init ['u'] none)).1 = Except.error PyError.typeError
      ∧ (Resource.content (fun _ => some ⟨200, [3], ['u']⟩)
          (Resource.retrieve (fun _ => some ⟨200, [3], ['u']⟩)
            (Resource.init ['u'] none)).2.1).1
        = Except.error PyError.attributeError
      ∧ (Except.error PyError.typeError : Except PyError (List Nat))
        ≠ Except.error PyError.attributeError :=
  ⟨rfl, rfl, fun h => PyError.noConfusion (Except.error.inj h)⟩

/-- C7 (amended): retrieval is memoized per instance except on the C10
path: (a) once an attempt has been made, every data accessor and `success`
make no network call, leave the state unchanged and are independent of the
network oracle; (b) from a fresh state, provided a cache was supplied or
the network attempt fails (i.e. excluding the cacheless successful fetch,
where the explicit `retrieve` raises `TypeError` and a later accessor
raises `AttributeError` instead), an explicit `retrieve` makes at most one
network call, every accessor yields the identical value whether invoked
before or after it, and invoked after it makes no further network call. -/
theorem retrieve_memoized (net : List Char → Option Response)
    (st : ResourceState) :
    (st.retrieved = true →
      ((Resource.content net st).2.1 = st ∧ (Resource.content net st).2.2 = 0
          ∧ ∀ net', Resource.content net' st = Resource.content net st)
        ∧ ((Resource.status_code net st).2.1 = st
          ∧ (Resource.status_code net st).2.2 = 0
          ∧ ∀ net', Resource.status_code net' st = Resource.status_code net st)
        ∧ ((Resource.final_url net st).2.1 = st
          ∧ (Resource.final_url net st).2.2 = 0
          ∧ ∀ net', Resource.final_url net' st = Resource.final_url net st)
        ∧ ((Resource.success net st).2.1 = st
          ∧ (Resource.success net st).2.2 = 0
          ∧ ∀ net', Resource.success net' st = Resource.success net st))
      ∧ (st.retrieved = false → (st.cache ≠ none ∨ net st.url = none) →
        (Resource.retrieve net st).2.2 ≤ 1
          ∧ (Resource.content net (Resource.retrieve net st).2.1).1
            = (Resource.content net st).1
          ∧ (Resource.content net (Resource.retrieve net st).2.1).2.2 = 0
          ∧ (Resource.status_code net (Resource.retrieve net st).2.1).1
            = (Resource.status_code net st).1
          ∧ (Resource.status_code net (Resource.retrieve net st).2.1).2.2 = 0
          ∧ (Resource.final_url net (Resource.retrieve net st).2.1).1
            = (Resource.final_url net st).1
          ∧ (Resource.final_url net (Resource.retrieve net st).2.1).2.2 = 0
          ∧ (Resource.success net (Resource.retrieve net st).2.1).1
            = (Resource.success net st).1
          ∧ (Resource.success net (Resource.retrieve net st).2.1).2.2 = 0) := by
  constructor
  · intro hret
    refine ⟨⟨?_, ?_, fun net' => ?_⟩, ⟨?_, ?_, fun net' => ?_⟩,
      ⟨?_, ?_, fun net' => ?_⟩, ⟨?_, ?_, fun net' => ?_⟩⟩ <;>
      simp [Resource.content, Resource.status_code, Resource.final_url,
        dataAccessor_retrieved _ _ _ hret, success_retrieved _ _ hret,
        accessorBody_state, accessorBody_calls, successBody_state,
        successBody_calls]
  · intro hret hsafe
    obtain ⟨url, cache, r?, s?⟩ := st
    obtain ⟨hr0, hs0⟩ := (retrieved_false_iff _).mp hret
    simp only at hr0 hs0
    subst hr0
    subst hs0
    rcases cache with _ | c
    · rcases hsafe with h | hn
      · exact absurd rfl h
      · simp only at hn
        refine ⟨?_, ?_, ?_, ?_, ?_, ?_, ?_, ?_, ?_⟩ <;>
          simp [Resource.retrieve, Resource.retrieveFetch, hn,
            Resource.content, Resource.status_code, Resource.final_url,
            Resource.success, Resource.dataAccessor, ResourceState.retrieved,
            Resource.accessorBody, Resource.successBody]
    · rcases hl : cacheLookup c url with _ | resp
      · rcases hn : net url with _ | resp <;>
          refine ⟨?_, ?_, ?_, ?_, ?_, ?_, ?_, ?_, ?_⟩ <;>
          simp [Resource.retrieve, Resource.retrieveFetch, hl, hn,
            Resource.content, Resource.status_code, Resource.final_url,
            Resource.success, Resource.dataAccessor, ResourceState.retrieved,
            Resource.accessorBody, Resource.successBody]
      · refine ⟨?_, ?_, ?_, ?_, ?_, ?_, ?_, ?_, ?_⟩ <;>
          simp [Resource.retrieve, Resource.retrieveFetch, hl,
            Resource.content, Resource.status_code, Resource.final_url,
            Resource.success, Resource.dataAccessor, ResourceState.retrieved,
            Resource.accessorBody, Resource.successBody]

/-- C7 witness: a fresh `Resource` with an (empty) cache and a succeeding
network: the explicit retrieval makes at most one call, and `content`
yields the identical value before and after it. -/
theorem retrieve_memoized_witness :
    (⟨['u'], some [], none, none⟩ : ResourceState).retrieved = false
      ∧ ((⟨['u'], some [], none, none⟩ : ResourceState).cache ≠ none)
      ∧ (Resource.retrieve (fun _ => some ⟨200, [5], ['u']⟩)
          ⟨['u'], some [], none, none⟩).2.2 ≤ 1
      ∧ (Resource.content (fun _ => some ⟨200, [5], ['u']⟩)
          (Resource.retrieve (fun _ => some ⟨200, [5], ['u']⟩)
            ⟨['u'], some [], none, none⟩).2.1).1
        = (Resource.content (fun _ => some ⟨200, [5], ['u']⟩)
            ⟨['u'], some [], none, none⟩).1 := by
  have h := (retrieve_memoized (fun _ => some ⟨200, [5], ['u']⟩)
    ⟨['u'], some [], none, none⟩).2 rfl (Or.inl (by simp))
  exact ⟨rfl, by simp, h.1, h.2.1⟩

/-- C2: with exactly one generator tag whose content has at least two
whitespace-separated tokens, a version is returned exactly when it belongs
to a package matching the first token and either its name contains the
(lower-cased, stripped) second token or no version of that package does
(fallback to the full set).  Concretely, content `WordPress 5.4` over
known versions `5.4`/`5.5` narrows to `5.4`, while `WordPress 9.9` falls
back to the full set. -/
theorem extract_generator_tag_narrowing :
    (∀ (retrieve_packages_by_name : List Char → List (List Char))
        (retrieve_versions : List Char → Finset SoftwareVersion)
        (content first second : List Char) (rest : List (List Char))
        (v : SoftwareVersion),
      pySplit content = first :: second :: rest →
      (v ∈ extract_generator_tag retrieve_packages_by_name retrieve_versions
          [some content] ↔
        ∃ m ∈ retrieve_packages_by_name first,
          v ∈ retrieve_versions m
            ∧ (pyIn (pyStrip (pyLower second)) (pyStrip (pyLower v.name)) = true
              ∨ ∀ w ∈ retrieve_versions m,
                  pyIn (pyStrip (pyLower second)) (pyStrip (pyLower w.name))
                    = false)))
      ∧ extract_generator_tag demoPackages demoVersions
          [some ('W' :: 'o' :: 'r' :: 'd' :: 'P' :: 'r' :: 'e' :: 's' :: 's'
            :: ' ' :: '5' :: '.' :: '4' :: [])]
        = {⟨('W' :: 'o' :: 'r' :: 'd' :: 'P' :: 'r' :: 'e' :: 's' :: 's' :: []),
            ('5' :: '.' :: '4' :: [])⟩}
      ∧ extract_generator_tag demoPackages demoVersions
          [some ('W' :: 'o' :: 'r' :: 'd' :: 'P' :: 'r' :: 'e' :: 's' :: 's'
            :: ' ' :: '9' :: '.' :: '9' :: [])]
        = {⟨('W' :: 'o' :: 'r' :: 'd' :: 'P' :: 'r' :: 'e' :: 's' :: 's' :: []),
            ('5' :: '.' :: '4' :: [])⟩,
          ⟨('W' :: 'o' :: 'r' :: 'd' :: 'P' :: 'r' :: 'e' :: 's' :: 's' :: []),
            ('5' :: '.' :: '5' :: [])⟩} := by
  refine ⟨?_, by decide, by decide⟩
  intro rp rv content first second rest v hsplit
  have hne : content ≠ [] := by
    intro h
    rw [h] at hsplit
    exact absurd hsplit (by simp [pySplit, pySplitAux])
  have hie : content.isEmpty = false := by
    cases content with
    | nil => exact absurd rfl hne
    | cons c cs => rfl
  have hext : extract_generator_tag rp rv [some content]
      = (rp first).foldl
          (fun result m => result ∪ narrowVersions rv (second :: rest) m) ∅ := by
    simp [extract_generator_tag, hie, hsplit]
  rw [hext, mem_foldl_union]
  simp only [Finset.not_mem_empty, false_or]
  constructor
  · rintro ⟨m, hm, hv⟩
    exact ⟨m, hm, (mem_narrowVersions rv second rest m v).mp hv⟩
  · rintro ⟨m, hm, hv⟩
    exact ⟨m, hm, (mem_narrowVersions rv second rest m v).mpr hv⟩

/-- C2 witness: the general narrowing characterization instantiated at the
demo backend on content `WordPress 5.4`. -/
theorem extract_generator_tag_narrowing_witness :
    pySplit ('W' :: 'o' :: 'r' :: 'd' :: 'P' :: 'r' :: 'e' :: 's' :: 's'
        :: ' ' :: '5' :: '.' :: '4' :: [])
      = ('W' :: 'o' :: 'r' :: 'd' :: 'P' :: 'r' :: 'e' :: 's' :: 's' :: [])
        :: ('5' :: '.' :: '4' :: []) :: []
      ∧ ((⟨('W' :: 'o' :: 'r' :: 'd' :: 'P' :: 'r' :: 'e' :: 's' :: 's' :: []),
            ('5' :: '.' :: '4' :: [])⟩ : SoftwareVersion)
          ∈ extract_generator_tag demoPackages demoVersions
            [some ('W' :: 'o' :: 'r' :: 'd' :: 'P' :: 'r' :: 'e' :: 's' :: 's'
              :: ' ' :: '5' :: '.' :: '4' :: [])] ↔
        ∃ m ∈ demoPackages
            ('W' :: 'o' :: 'r' :: 'd' :: 'P' :: 'r' :: 'e' :: 's' :: 's' :: []),
          (⟨('W' :: 'o' :: 'r' :: 'd' :: 'P' :: 'r' :: 'e' :: 's' :: 's' :: []),
              ('5' :: '.' :: '4' :: [])⟩ : SoftwareVersion) ∈ demoVersions m
            ∧ (pyIn (pyStrip (pyLower ('5' :: '.' :: '4' :: [])))
                  (pyStrip (pyLower
                    (⟨('W' :: 'o' :: 'r' :: 'd' :: 'P' :: 'r' :: 'e' :: 's'
                        :: 's' :: []),
                      ('5' :: '.' :: '4' :: [])⟩ : SoftwareVersion).name)) = true
              ∨ ∀ w ∈ demoVersions m,
                  pyIn (pyStrip (pyLower ('5' :: '.' :: '4' :: [])))
                    (pyStrip (pyLower w.name)) = false)) :=
  ⟨by decide,
   extract_generator_tag_narrowing.1 demoPackages demoVersions
     ('W' :: 'o' :: 'r' :: 'd' :: 'P' :: 'r' :: 'e' :: 's' :: 's'
       :: ' ' :: '5' :: '.' :: '4' :: [])
     ('W' :: 'o' :: 'r' :: 'd' :: 'P' :: 'r' :: 'e' :: 's' :: 's' :: [])
     ('5' :: '.' :: '4' :: []) []
     ⟨('W' :: 'o' :: 'r' :: 'd' :: 'P' :: 'r' :: 'e' :: 's' :: 's' :: []),
       ('5' :: '.' :: '4' :: [])⟩
     (by decide)⟩

/-- Taking as many elements as the left part of an append keeps exactly
the left part. -/
theorem take_append_of_length {α : Type} (a b : List α) (n : Nat)
    (h : a.length = n) : (a ++ b).take n = a := by
  subst h
  exact List.take_left a b

/-- Dropping as many elements as the left part of an append keeps exactly
the right part. -/
theorem drop_append_of_length {α : Type} (a b : List α) (n : Nat)
    (h : a.length = n) : (a ++ b).drop n = b := by
  subst h
  exact List.drop_left a b

/-- C9: in `persist`, a derived name longer than 200 characters is stored
as `first 50 ++ "..." ++ checksum hex digest ++ "..." ++ last 50`: its
length is `106 +` the digest length and its first and last 50 characters
are those of the derived name, for every sanitizer and checksum. -/
theorem persist_name_compression (checksumHex clean : List Char → List Char)
    (urlPath name : List Char)
    (hname : name = derivePathName clean urlPath)
    (h : 200 < name.length) :
    persistPathName checksumHex name
        = name.take 50 ++ ['.', '.', '.'] ++ checksumHex name ++ ['.', '.', '.']
          ++ name.drop (name.length - 50)
      ∧ (persistPathName checksumHex name).length
        = 106 + (checksumHex name).length
      ∧ (persistPathName checksumHex name).take 50 = name.take 50
      ∧ (persistPathName checksumHex name).drop
          ((persistPathName checksumHex name).length - 50)
        = name.drop (name.length - 50) := by
  clear hname
  have hT : (name.take 50).length = 50 := by
    rw [List.length_take]
    omega
  have hD : (name.drop (name.length - 50)).length = 50 := by
    rw [List.length_drop]
    omega
  have heq : persistPathName checksumHex name
      = name.take 50 ++ ['.', '.', '.'] ++ checksumHex name ++ ['.', '.', '.']
        ++ name.drop (name.length - 50) := by
    rw [persistPathName, if_pos h]
    simp [List.intercalate, List.intersperse]
  have hlen : (persistPathName checksumHex name).length
      = 106 + (checksumHex name).length := by
    rw [heq]
    simp only [List.length_append, hT, hD, List.length_cons, List.length_nil]
    omega
  refine ⟨heq, hlen, ?_, ?_⟩
  · rw [heq]
    have hgrp : name.take 50 ++ ['.', '.', '.'] ++ checksumHex name
          ++ ['.', '.', '.'] ++ name.drop (name.length - 50)
        = name.take 50 ++ (['.', '.', '.'] ++ checksumHex name
          ++ ['.', '.', '.'] ++ name.drop (name.length - 50)) := by
      simp [List.append_assoc]
    rw [hgrp]
    exact take_append_of_length _ _ _ hT
  · have hgrp : persistPathName checksumHex name
        = (name.take 50 ++ ['.', '.', '.'] ++ checksumHex name ++ ['.', '.', '.'])
          ++ name.drop (name.length - 50) := by
      rw [heq]
    have hplen : (name.take 50 ++ ['.', '.', '.'] ++ checksumHex name
          ++ ['.', '.', '.']).length = 56 + (checksumHex name).length := by
      simp only [List.length_append, hT, List.length_cons, List.length_nil]
      omega
    have hidx : (persistPathName checksumHex name).length - 50
        = (name.take 50 ++ ['.', '.', '.'] ++ checksumHex name
          ++ ['.', '.', '.']).length := by
      rw [hlen, hplen]
      omega
    rw [hidx, hgrp]
    exact drop_append_of_length _ _ _ rfl

/-- C9 witness: a 300-character URL path (a leading slash and 300 safe
characters) with an identity sanitizer and a 4-character digest yields a
stored name of length `106 + 4` preserving the outer 50-character blocks. -/
theorem persist_name_compression_witness :
    (List.replicate 300 'a' : List Char)
        = derivePathName (fun s => s) ('/' :: List.replicate 300 'a')
      ∧ 200 < (List.replicate 300 'a' : List Char).length
      ∧ (persistPathName (fun _ => ['0', '1', '2', '3'])
          (List.replicate 300 'a')).length
        = 106 + (['0', '1', '2', '3'] : List Char).length := by
  have h1 : (List.replicate 300 'a' : List Char)
      = derivePathName (fun s => s) ('/' :: List.replicate 300 'a') := rfl
  have h2 : 200 < (List.replicate 300 'a' : List Char).length := by
    rw [List.length_replicate]
    omega
  exact ⟨h1, h2,
    (persist_name_compression (fun _ => ['0', '1', '2', '3']) (fun s => s)
      ('/' :: List.replicate 300 'a') (List.replicate 300 'a') h1 h2).2.1⟩

/-- C8 witness: concrete disjoint construction. -/
theorem guess_disjoint_when_supplied_disjoint_witness :
    (∀ a : Asset, a ∈ (some ({⟨0, 1⟩} : Finset Asset)).getD ∅
        → a ∉ (some ({⟨1, 2⟩} : Finset Asset)).getD ∅)
      ∧ ∀ a : Asset,
        a ∈ (Guess.init ⟨[], []⟩ (some {⟨0, 1⟩}) (some {⟨1, 2⟩})).positive_matches
          → a ∉ (Guess.init ⟨[], []⟩ (some {⟨0, 1⟩}) (some {⟨1, 2⟩})).negative_matches :=
  ⟨by decide,
   guess_disjoint_when_supplied_disjoint ⟨[], []⟩
     (some {⟨0, 1⟩}) (some {⟨1, 2⟩}) (by decide)⟩

end VersionInferrer
